import Mathlib

/-!
Verification development for the copilot tool framework: fuzzy matching,
the agentic modification engine, the CRUD batch engine, and the versioned
persistence coordinator, shallowly embedded from the TypeScript sources.
-/

set_option maxRecDepth 4000

namespace CopilotFramework

/-! ### JavaScript string primitives

JavaScript strings are modelled as Lean `String`s; the handful of string
methods the sources use (`toLowerCase`, `trim`, `startsWith`, `includes`)
are modelled on the underlying character lists, with `Char.toLower` standing
for the per-character lowercasing and the ASCII whitespace class standing
for the JS whitespace class. -/

/-- Whitespace test used by the model of `String.prototype.trim`. -/
def jsWhitespaceChar (c : Char) : Bool :=
  c == ' ' || c == '\t' || c == '\n' || c == '\r' || c == '\x0b' || c == '\x0c'

/-- Model of `s.trim()`: drop whitespace from both ends of the character list. -/
def jsTrim (l : List Char) : List Char :=
  ((l.dropWhile jsWhitespaceChar).reverse.dropWhile jsWhitespaceChar).reverse

/-- Model of `s.toLowerCase()`: lowercase each character. -/
def jsToLower (l : List Char) : List Char :=
  l.map Char.toLower

/-- Model of `hay.includes(needle)`: `needle` occurs contiguously in `hay`. -/
def jsIncludes (hay needle : List Char) : Bool :=
  needle.isPrefixOf hay ||
    match hay with
    | [] => false
    | _ :: t => jsIncludes t needle

/-- Model of `s.startsWith(pre)` on whole strings. -/
def jsStartsWith (s pre : String) : Bool :=
  pre.data.isPrefixOf s.data

/-- The normalization `x.toLowerCase().trim()` applied by `fuzzyMatch` to both
of its string arguments. -/
def fuzzyNormalize (s : String) : List Char :=
  jsTrim (jsToLower s.data)

/-! ### Fuzzy matching (`fuzzy-matching.ts`) -/

/-- Options record for `fuzzyMatch`.  The source also declares a `minScore`
option, but no code path ever reads it, so it is not represented. -/
structure FuzzyMatchOptions where
  exact : Bool := false
  startsWith : Bool := false
deriving DecidableEq, Repr

/-- Embedding of `fuzzyMatch(target, searchTerm, options)`: normalize both
strings with lowercase-then-trim, then test equality (`exact` mode), prefix
(`startsWith` mode) or substring containment (default mode). -/
def fuzzyMatch (target searchTerm : String) (options : FuzzyMatchOptions) : Bool :=
  let normalizedTarget := fuzzyNormalize target
  let normalizedSearch := fuzzyNormalize searchTerm
  if options.exact then
    normalizedTarget == normalizedSearch
  else if options.startsWith then
    normalizedSearch.isPrefixOf normalizedTarget
  else
    jsIncludes normalizedTarget normalizedSearch

/-- A dynamically-typed JS field value as observed by `fuzzyFindIndex`: the
only test the source performs is `typeof fieldValue === 'string'`, so the
model keeps the string payload and collapses every non-string value. -/
inductive JsFieldValue where
  | str (s : String)
  | nonString
deriving DecidableEq

/-- A JS record, modelled as a total map from field names to field values
(an absent field reads as a non-string value, as in JS where it reads
`undefined`). -/
def JsRecord : Type := String → JsFieldValue

/-- The predicate `fuzzyFindIndex` applies to each item: the named field must
be a string and must fuzzy-match the search term. -/
def fuzzyFieldMatches (nameField searchTerm : String) (options : FuzzyMatchOptions)
    (item : JsRecord) : Bool :=
  match item nameField with
  | JsFieldValue.str s => fuzzyMatch s searchTerm options
  | JsFieldValue.nonString => false

/-- Embedding of `fuzzyFindIndex(items, nameField, searchTerm, options)`:
index of the first item whose field fuzzy-matches, `-1` when none does
(JS `Array.prototype.findIndex` semantics). -/
def fuzzyFindIndex (items : List JsRecord) (nameField searchTerm : String)
    (options : FuzzyMatchOptions) : Int :=
  match items.findIdx? (fuzzyFieldMatches nameField searchTerm options) with
  | some i => (i : Int)
  | none => -1

/-! ### Response helpers (`response-helpers.ts`) -/

/-- Embedding of the `ModificationResult<T>` interface.  `T` is the type of
the `updated` payload. -/
structure ModificationResult (T : Type) where
  success : Bool
  message : String
  updated : Option T
  affectedCount : Option Nat
  error : Option String
deriving DecidableEq, Repr

/-- Embedding of `successResult(message, updated?, affectedCount?)`. -/
def successResult {T : Type} (message : String) (updated : Option T)
    (affectedCount : Option Nat) : ModificationResult T :=
  { success := true, message := message, updated := updated,
    affectedCount := affectedCount, error := none }

/-- Embedding of `errorResult(error)` (the string case; an `Error` object is
represented by its message string). -/
def errorResult {T : Type} (error : String) : ModificationResult T :=
  { success := false, message := "Modification failed", updated := none,
    affectedCount := none, error := some error }

/-! ### Agentic framework (`agentic-framework.ts`)

Asynchronous TypeScript computations that may throw are modelled as
`Except String α`, the `String` being the thrown error message; `await`
becomes `Except.bind`.  A zod schema is modelled by its `safeParse`
function. -/

/-- Embedding of `AgenticActionHandler<TEntity>`.  `V` is the type of the
dynamically-typed `target` / `changes` / `newData` payloads.  `targetSchema`
and `changesSchema` are the `safeParse` functions of the zod schemas.
`execute` may throw (`Except.error`), return a new entity (`some`), or
return `undefined` / `null` (`none`).  `newDataSchema` is declared in the
source but never consulted by the engine, so it is not represented. -/
structure AgenticActionHandler (E V : Type) where
  description : String
  targetSchema : Option V → Except String V
  changesSchema : Option (V → Except String V)
  execute : E → V → Option V → Option V → Except String (Option E)

/-- Embedding of `ModificationItem`. -/
structure ModificationItem (V : Type) where
  action : String
  target : Option V
  changes : Option V
  newData : Option V
deriving DecidableEq, Repr

/-- Result of `validateEntity`: the TS type `boolean | string`. -/
inductive BoolOrString where
  | bool (b : Bool)
  | str (s : String)

/-- Embedding of `AgenticToolConfig<TEntity>` (the fields the `execute`
closure reads).  The `actions` registry is an association list keyed by
action name, looked up first-match like a JS object property access. -/
structure AgenticToolConfig (E V : Type) where
  domain : String
  resolveEntity : String → Except String (Option E)
  saveEntity : String → E → Except String Unit
  actions : List (String × AgenticActionHandler E V)
  beforeSave : Option (E → Except String E)
  afterSave : Option (E → Except String Unit)
  validateEntity : Option (E → BoolOrString)

/-- The arguments record received by the built `execute` function, already
parsed against the declared parameters schema. -/
structure AgenticArgs (V : Type) where
  entityId : String
  action : Option String
  target : Option V
  changes : Option V
  newData : Option V
  batch : Option (List (ModificationItem V))

/-- One iteration of the modification loop (steps inside `for (const mod of
modifications)`): look the action up, validate `target`, validate `changes`
when a schema exists and `changes` is present, run the handler catching any
thrown error, and produce the new current entity together with the single
outcome line pushed onto `results`. -/
def applyMod {E V : Type} (actions : List (String × AgenticActionHandler E V))
    (entity : E) (mod : ModificationItem V) : E × String :=
  match actions.lookup mod.action with
  | none => (entity, "❌ Unknown action: " ++ mod.action)
  | some handler =>
    match handler.targetSchema mod.target with
    | Except.error msg =>
      (entity, "❌ Invalid target for " ++ mod.action ++ ": " ++ msg)
    | Except.ok targetParsed =>
      let changesStep : Except String (Option V) :=
        match handler.changesSchema, mod.changes with
        | some schema, some c =>
          match schema c with
          | Except.error msg => Except.error msg
          | Except.ok parsed => Except.ok (some parsed)
        | _, _ => Except.ok mod.changes
      match changesStep with
      | Except.error msg =>
        (entity, "❌ Invalid changes for " ++ mod.action ++ ": " ++ msg)
      | Except.ok changesParsed =>
        match handler.execute entity targetParsed changesParsed mod.newData with
        | Except.error msg => (entity, "❌ " ++ mod.action ++ " failed: " ++ msg)
        | Except.ok none => (entity, "✅ " ++ mod.action ++ " completed")
        | Except.ok (some e2) => (e2, "✅ " ++ mod.action ++ " completed")

/-- The whole modification loop: threads `currentEntity` through the items
and collects the outcome lines in input order. -/
def runMods {E V : Type} (actions : List (String × AgenticActionHandler E V)) :
    E → List (ModificationItem V) → E × List String
  | entity, [] => (entity, [])
  | entity, m :: ms =>
    let step := applyMod actions entity m
    let rest := runMods actions step.1 ms
    (rest.1, step.2 :: rest.2)

/-- The single-modification fallback `args.action ? [ {...} ] : []`; note the
JS truthiness test on the action string (an empty string is falsy). -/
def singleModificationOf {V : Type} (args : AgenticArgs V) : List (ModificationItem V) :=
  match args.action with
  | some s =>
    if s == "" then []
    else [{ action := s, target := args.target, changes := args.changes,
            newData := args.newData }]
  | none => []

/-- Step 3 of the pipeline: `batch && batch.length > 0 ? batch : (args.action
? [single] : [])`. -/
def buildModifications {V : Type} (args : AgenticArgs V) : List (ModificationItem V) :=
  match args.batch with
  | some b => if b.length > 0 then b else singleModificationOf args
  | none => singleModificationOf args

/-- Step 2 of the pipeline: run the optional `validateEntity` and produce the
early error result when it does not return `true`. -/
def validationFailure {E V T : Type} (cfg : AgenticToolConfig E V) (entity : E) :
    Option (ModificationResult T) :=
  match cfg.validateEntity with
  | none => none
  | some v =>
    match v entity with
    | BoolOrString.bool true => none
    | BoolOrString.bool false => some (errorResult "Entity validation failed")
    | BoolOrString.str s => some (errorResult s)

/-- The `updated` payload of the aggregate success result:
`{ entityId, modificationsApplied, errors }`. -/
structure AgenticMeta where
  entityId : String
  modificationsApplied : Nat
  errors : Nat
deriving DecidableEq, Repr

/-- Run the optional `beforeSave` hook (step 5); a thrown error propagates. -/
def runBeforeSave {E V : Type} (cfg : AgenticToolConfig E V) (entity : E) :
    Except String E :=
  match cfg.beforeSave with
  | some f => f entity
  | none => Except.ok entity

/-- Run the optional `afterSave` hook (step 7); a thrown error propagates. -/
def runAfterSave {E V : Type} (cfg : AgenticToolConfig E V) (entity : E) :
    Except String Unit :=
  match cfg.afterSave with
  | some f => f entity
  | none => Except.ok ()

/-- Steps 5 through 8 of the pipeline, after the modification loop:
`beforeSave` hook, `saveEntity` inside try/catch, `afterSave` hook, then the
aggregate success result with the joined outcome lines and the counts of
lines starting with the success and failure markers.  The second component
of the returned pair instruments the model: it lists the entities passed to
`saveEntity`, in invocation order. -/
def agenticFinish {E V : Type} (cfg : AgenticToolConfig E V) (entityId : String)
    (current0 : E) (results : List String) :
    Except String (ModificationResult AgenticMeta) × List E :=
  match runBeforeSave cfg current0 with
  | Except.error e => (Except.error e, [])
  | Except.ok current =>
    match cfg.saveEntity entityId current with
    | Except.error e =>
      (Except.ok (errorResult ("Save failed: " ++ e)), [current])
    | Except.ok _ =>
      match runAfterSave cfg current with
      | Except.error e => (Except.error e, [current])
      | Except.ok _ =>
        let successCount := (results.filter (fun r => jsStartsWith r "✅")).length
        let errorCount := (results.filter (fun r => jsStartsWith r "❌")).length
        (Except.ok (successResult (String.intercalate "\n" results)
            (some { entityId := entityId, modificationsApplied := successCount,
                    errors := errorCount }) none),
         [current])

/-- Embedding of the `execute` closure built by `createAgenticTool`: resolve
the entity, validate it, build the modification list, run the loop, then
hooks / save / aggregate result.  `Except.error` models an exception
propagating out of `execute` to the caller; the second component lists the
entities passed to `saveEntity`. -/
def agenticExecute {E V : Type} (cfg : AgenticToolConfig E V) (args : AgenticArgs V) :
    Except String (ModificationResult AgenticMeta) × List E :=
  match cfg.resolveEntity args.entityId with
  | Except.error e => (Except.error e, [])
  | Except.ok none =>
    (Except.ok (errorResult
      (cfg.domain ++ " entity with ID " ++ args.entityId ++ " not found")), [])
  | Except.ok (some entity) =>
    match validationFailure (T := AgenticMeta) cfg entity with
    | some r => (Except.ok r, [])
    | none =>
      let modifications := buildModifications args
      if modifications.length = 0 then
        (Except.ok (errorResult
          "No modification specified. Provide action+target or batch array."), [])
      else
        let looped := runMods cfg.actions entity modifications
        agenticFinish cfg args.entityId looped.1 looped.2

/-! ### CRUD framework (`copilot-crud-framework.ts`)

Only the shapes the `execute` closure reads are embedded.  A handler is an
opaque caller-supplied function; the JS object spread `{...item.target,
...item.data}` that builds its argument record is passed through to the
opaque handler as the two fields themselves.  Handler results use
`ModificationResult (List String)`, which is also the result type of the
batch branch (whose `updated` payload `{ results }` is modelled as the list
of per-item messages). -/

/-- A CRUD handler: may throw (`Except.error`) or return a result. -/
def CrudHandler (V : Type) : Type :=
  Option V → Option V → Except String (ModificationResult (List String))

/-- Embedding of `BatchOperationItem`. -/
structure BatchOperationItem (V : Type) where
  operation : String
  target : Option V
  data : Option V

/-- Embedding of the `CrudToolConfig` fields read by `execute`. -/
structure CrudToolConfig (V : Type) where
  handlers : List (String × CrudHandler V)
  batchSupported : Bool

/-- The arguments record received by the CRUD `execute` function. -/
structure CrudArgs (V : Type) where
  operation : String
  target : Option V
  data : Option V
  batch : Option (List (BatchOperationItem V))

/-- Interpolation of `result.error` (type `string | undefined`) into a JS
template literal: `undefined` renders as the string "undefined". -/
def jsInterpolate : Option String → String
  | some s => s
  | none => "undefined"

/-- Outcome of the CRUD batch loop: a handler threw (the exception
propagates, since the batch loop has no try/catch), the loop returned an
early error result, or every item succeeded yielding its messages. -/
inductive CrudBatchOutcome where
  | thrown (e : String)
  | aborted (r : ModificationResult (List String))
  | done (messages : List String)

/-- The `for (const item of batch)` loop of the CRUD `execute`: abort with an
error result at the first unknown operation or the first handler result with
`success == false`; otherwise collect `result.message` per item.  The second
component instruments the model with the operations whose handler was
actually invoked, in order. -/
def crudBatchLoop {V : Type} (handlers : List (String × CrudHandler V)) :
    List (BatchOperationItem V) → CrudBatchOutcome × List String
  | [] => (CrudBatchOutcome.done [], [])
  | item :: rest =>
    match handlers.lookup item.operation with
    | none =>
      (CrudBatchOutcome.aborted
        (errorResult ("Unknown operation in batch: " ++ item.operation)), [])
    | some handler =>
      match handler item.target item.data with
      | Except.error e => (CrudBatchOutcome.thrown e, [item.operation])
      | Except.ok result =>
        if result.success then
          let rest' := crudBatchLoop handlers rest
          match rest'.1 with
          | CrudBatchOutcome.done messages =>
            (CrudBatchOutcome.done (result.message :: messages),
             item.operation :: rest'.2)
          | out => (out, item.operation :: rest'.2)
        else
          (CrudBatchOutcome.aborted
            (errorResult ("Batch failed at operation " ++ item.operation ++ ": " ++
              jsInterpolate result.error)), [item.operation])

/-- Embedding of the `execute` closure built by `createCrudTool`.
`Except.error` models an exception propagating to the caller; the second
component lists the operations whose handler was invoked. -/
def crudExecute {V : Type} (cfg : CrudToolConfig V) (args : CrudArgs V) :
    Except String (ModificationResult (List String)) × List String :=
  let single : Except String (ModificationResult (List String)) × List String :=
    match cfg.handlers.lookup args.operation with
    | none => (Except.ok (errorResult ("Unknown operation: " ++ args.operation)), [])
    | some handler =>
      match handler args.target args.data with
      | Except.ok r => (Except.ok r, [args.operation])
      | Except.error e => (Except.ok (errorResult e), [args.operation])
  match args.batch with
  | some batch =>
    if batch.length > 0 then
      if cfg.batchSupported then
        match crudBatchLoop cfg.handlers batch with
        | (CrudBatchOutcome.done messages, log) =>
          (Except.ok (successResult
            ("Batch completed: " ++ toString batch.length ++ " operations")
            (some messages) none), log)
        | (CrudBatchOutcome.aborted r, log) => (Except.ok r, log)
        | (CrudBatchOutcome.thrown e, log) => (Except.error e, log)
      else
        (Except.ok (errorResult "Batch operations not supported for this domain"), [])
    else single
  | none => single

/-! ### Versioned persistence (`modification.service.ts`)

The Prisma store is an external collaborator; its two statements used inside
the `$transaction` callback — `create` on the versions table and `update` on
the live table — are modelled as operations of an abstract store that must
respect the obvious append / map-by-id semantics when they succeed
(`HonestCreate` / `HonestUpdate` below).  `$transaction` itself is modelled
as atomic, per its contract: on any failure of the body the database is
unchanged.  The `writeLog` field records the order in which the two writes
landed. -/

/-- A write performed inside the commit transaction. -/
inductive WriteOp where
  | snapshotCreate
  | liveUpdate
deriving DecidableEq, Repr

/-- The slice of the database a commit touches: the live rows, the
append-only snapshot table, and the instrumenting write log. -/
structure VersionedDb (Row Snap : Type) where
  rows : List Row
  snapshots : List Snap
  writeLog : List WriteOp
deriving DecidableEq

/-- The two transactional statements, as abstract store operations that may
fail. -/
structure TxStore (Row Snap Upd : Type) where
  createSnapshot : Snap → VersionedDb Row Snap → Except String (VersionedDb Row Snap)
  updateRow : String → Upd → VersionedDb Row Snap → Except String (VersionedDb Row Snap)

/-- Contract of the versions-table `create`: on success it appends exactly
the given record and touches nothing else. -/
def HonestCreate {Row Snap Upd : Type} (st : TxStore Row Snap Upd) : Prop :=
  ∀ s db db', st.createSnapshot s db = Except.ok db' →
    db'.snapshots = db.snapshots ++ [s] ∧ db'.rows = db.rows ∧
    db'.writeLog = db.writeLog ++ [WriteOp.snapshotCreate]

/-- Contract of the live-table `update ... where id`: on success it applies
the update to exactly the rows with the given id and touches nothing else. -/
def HonestUpdate {Row Snap Upd : Type} (getId : Row → String)
    (applyUpd : Upd → Row → Row) (st : TxStore Row Snap Upd) : Prop :=
  ∀ id u db db', st.updateRow id u db = Except.ok db' →
    db'.rows = db.rows.map (fun r => if getId r = id then applyUpd u r else r) ∧
    db'.snapshots = db.snapshots ∧
    db'.writeLog = db.writeLog ++ [WriteOp.liveUpdate]

/-- The `$transaction` callback body shared by `modifyNutritionDay` and
`modifyWorkoutWeek`: create the snapshot record, then update the live row. -/
def txBody {Row Snap Upd : Type} (st : TxStore Row Snap Upd) (snap : Snap)
    (id : String) (upd : Upd) (db : VersionedDb Row Snap) :
    Except String (VersionedDb Row Snap) :=
  (st.createSnapshot snap db).bind (st.updateRow id upd)

/-- Model of `prisma.$transaction`: run the body atomically; on failure the
database is unchanged and the error is reported. -/
def runTransaction {Row Snap : Type}
    (body : VersionedDb Row Snap → Except String (VersionedDb Row Snap))
    (db : VersionedDb Row Snap) : VersionedDb Row Snap × Option String :=
  match body db with
  | Except.ok db' => (db', none)
  | Except.error e => (db, some e)

/-- The live `nutrition_plans` row, with the fields the service reads and
writes.  `J` is the type of the JSON-valued columns. -/
structure NutritionPlanRow (J : Type) where
  id : String
  userId : String
  version : Nat
  name : String
  description : String
  goals : List String
  durationWeeks : Nat
  targetMacros : J
  weeks : J
  restrictions : List String
  preferences : List String
  status : String
  metadata : Option J
deriving DecidableEq

/-- A `nutrition_plan_versions` record. -/
structure NutritionPlanVersionRow (J : Type) where
  id : String
  planId : String
  version : Nat
  name : String
  description : String
  goals : List String
  durationWeeks : Nat
  targetMacros : J
  weeks : J
  restrictions : List String
  preferences : List String
  status : String
  metadata : Option J
  createdBy : String
deriving DecidableEq

/-- The `persistenceData` fields written to the live nutrition row. -/
structure NutritionPersistenceData (J : Type) where
  name : String
  description : String
  goals : List String
  durationWeeks : Nat
  targetMacros : J
  weeks : J
  restrictions : List String
  preferences : List String
  status : String
  metadata : Option J
deriving DecidableEq

/-- The snapshot record `modifyNutritionDay` creates, field by field from the
pre-edit row `planToUpdate`, tagged with the acting user. -/
def nutritionSnapshotOf {J : Type} (newId userId : String)
    (planToUpdate : NutritionPlanRow J) : NutritionPlanVersionRow J :=
  { id := newId, planId := planToUpdate.id, version := planToUpdate.version,
    name := planToUpdate.name, description := planToUpdate.description,
    goals := planToUpdate.goals, durationWeeks := planToUpdate.durationWeeks,
    targetMacros := planToUpdate.targetMacros, weeks := planToUpdate.weeks,
    restrictions := planToUpdate.restrictions,
    preferences := planToUpdate.preferences, status := planToUpdate.status,
    metadata := planToUpdate.metadata, createdBy := userId }

/-- The live-row update `modifyNutritionDay` performs: overwrite the content
fields with `persistenceData` and apply `version: { increment: 1 }`. -/
def applyNutritionUpdate {J : Type} (pd : NutritionPersistenceData J)
    (r : NutritionPlanRow J) : NutritionPlanRow J :=
  { r with
    name := pd.name, description := pd.description, goals := pd.goals,
    durationWeeks := pd.durationWeeks, targetMacros := pd.targetMacros,
    weeks := pd.weeks, restrictions := pd.restrictions,
    preferences := pd.preferences, status := pd.status,
    metadata := pd.metadata, version := r.version + 1 }

/-- The commit transaction of `modifyNutritionDay` (lines 158-195 of the
service): snapshot-create then live-update, inside one atomic transaction. -/
def nutritionCommit {J : Type}
    (st : TxStore (NutritionPlanRow J) (NutritionPlanVersionRow J)
      (NutritionPersistenceData J))
    (snapId userId planId : String) (planToUpdate : NutritionPlanRow J)
    (pd : NutritionPersistenceData J) (db : VersionedDb (NutritionPlanRow J)
      (NutritionPlanVersionRow J)) :
    VersionedDb (NutritionPlanRow J) (NutritionPlanVersionRow J) × Option String :=
  runTransaction (txBody st (nutritionSnapshotOf snapId userId planToUpdate) planId pd) db

/-- The live `workout_programs` row. -/
structure WorkoutProgramRow (J : Type) where
  id : String
  userId : String
  version : Nat
  name : String
  description : String
  difficulty : String
  durationWeeks : Nat
  goals : List String
  status : String
  weeks : J
  metadata : Option J
deriving DecidableEq

/-- A `workout_program_versions` record. -/
structure WorkoutProgramVersionRow (J : Type) where
  id : String
  programId : String
  version : Nat
  name : String
  description : String
  difficulty : String
  durationWeeks : Nat
  goals : List String
  status : String
  weeks : J
  metadata : Option J
  createdBy : String
deriving DecidableEq

/-- The `persistenceData` fields written to the live workout row. -/
structure WorkoutPersistenceData (J : Type) where
  name : String
  description : String
  difficulty : String
  durationWeeks : Nat
  goals : List String
  weeks : J
  status : String
  metadata : Option J
deriving DecidableEq

/-- The snapshot record `modifyWorkoutWeek` creates from the pre-edit row. -/
def workoutSnapshotOf {J : Type} (newId userId : String)
    (programToUpdate : WorkoutProgramRow J) : WorkoutProgramVersionRow J :=
  { id := newId, programId := programToUpdate.id,
    version := programToUpdate.version, name := programToUpdate.name,
    description := programToUpdate.description,
    difficulty := programToUpdate.difficulty,
    durationWeeks := programToUpdate.durationWeeks,
    goals := programToUpdate.goals, status := programToUpdate.status,
    weeks := programToUpdate.weeks, metadata := programToUpdate.metadata,
    createdBy := userId }

/-- The live-row update `modifyWorkoutWeek` performs. -/
def applyWorkoutUpdate {J : Type} (pd : WorkoutPersistenceData J)
    (r : WorkoutProgramRow J) : WorkoutProgramRow J :=
  { r with
    name := pd.name, description := pd.description,
    difficulty := pd.difficulty, durationWeeks := pd.durationWeeks,
    goals := pd.goals, weeks := pd.weeks, status := pd.status,
    metadata := pd.metadata, version := r.version + 1 }

/-- The commit transaction of `modifyWorkoutWeek` (lines 276-309 of the
service). -/
def workoutCommit {J : Type}
    (st : TxStore (WorkoutProgramRow J) (WorkoutProgramVersionRow J)
      (WorkoutPersistenceData J))
    (snapId userId programId : String) (programToUpdate : WorkoutProgramRow J)
    (pd : WorkoutPersistenceData J) (db : VersionedDb (WorkoutProgramRow J)
      (WorkoutProgramVersionRow J)) :
    VersionedDb (WorkoutProgramRow J) (WorkoutProgramVersionRow J) × Option String :=
  runTransaction (txBody st (workoutSnapshotOf snapId userId programToUpdate) programId pd) db

/-- A batch item on which the loop proceeds: its operation is registered and
its handler returns a result with `success == true`. -/
def crudItemSucceeds {V : Type} (handlers : List (String × CrudHandler V))
    (item : BatchOperationItem V) : Prop :=
  ∃ handler result, handlers.lookup item.operation = some handler ∧
    handler item.target item.data = Except.ok result ∧ result.success = true

/-! ### Concrete fixtures used by witnesses and counterexamples

Entities are modelled as counters (`Nat`) and payload values as `Nat`;
handlers increment the entity or throw. -/

/-- An action handler that accepts any target and increments the entity. -/
def incHandler : AgenticActionHandler Nat Nat :=
  { description := "increment the entity",
    targetSchema := fun _ => Except.ok 0,
    changesSchema := none,
    execute := fun e _ _ _ => Except.ok (some (e + 1)) }

/-- An action handler whose execution throws "bad weight". -/
def badWeightHandler : AgenticActionHandler Nat Nat :=
  { description := "always throws",
    targetSchema := fun _ => Except.ok 0,
    changesSchema := none,
    execute := fun _ _ _ _ => Except.error "bad weight" }

/-- A three-action registry. -/
def sampleActions : List (String × AgenticActionHandler Nat Nat) :=
  [("add_meal", incHandler), ("set_weight", badWeightHandler), ("add_note", incHandler)]

/-- A batch item with the given action and no payloads. -/
def mkItem (a : String) : ModificationItem Nat :=
  { action := a, target := none, changes := none, newData := none }

/-- A config whose save succeeds only for the entity value the three-item
scenario is expected to produce, so a successful save certifies the saved
entity. -/
def sampleCfg : AgenticToolConfig Nat Nat :=
  { domain := "nutrition",
    resolveEntity := fun _ => Except.ok (some 0),
    saveEntity := fun _ e => if e == 2 then Except.ok () else Except.error "unexpected entity",
    actions := sampleActions,
    beforeSave := none, afterSave := none, validateEntity := none }

/-- A config that accepts any save. -/
def plainCfg : AgenticToolConfig Nat Nat :=
  { domain := "nutrition",
    resolveEntity := fun _ => Except.ok (some 0),
    saveEntity := fun _ _ => Except.ok (),
    actions := sampleActions,
    beforeSave := none, afterSave := none, validateEntity := none }

/-- A config whose save always throws. -/
def saveFailCfg : AgenticToolConfig Nat Nat :=
  { domain := "nutrition",
    resolveEntity := fun _ => Except.ok (some 0),
    saveEntity := fun _ _ => Except.error "database unavailable",
    actions := sampleActions,
    beforeSave := none, afterSave := none, validateEntity := none }

/-- A config whose entity resolution throws. -/
def throwingResolveCfg : AgenticToolConfig Nat Nat :=
  { domain := "workout",
    resolveEntity := fun _ => Except.error "resolver exploded",
    saveEntity := fun _ _ => Except.ok (),
    actions := sampleActions,
    beforeSave := none, afterSave := none, validateEntity := none }

/-- Arguments carrying the three-item batch of the thrown-handler scenario. -/
def sampleBatchArgs : AgenticArgs Nat :=
  { entityId := "plan-1", action := none, target := none, changes := none,
    newData := none,
    batch := some [mkItem "add_meal", mkItem "set_weight", mkItem "add_note"] }

/-- Arguments whose batch names only unregistered actions. -/
def unknownOnlyArgs : AgenticArgs Nat :=
  { entityId := "plan-2", action := none, target := none, changes := none,
    newData := none,
    batch := some [mkItem "ghost_action", mkItem "phantom_action"] }

/-- Arguments with no batch and no single action. -/
def emptyArgs : AgenticArgs Nat :=
  { entityId := "plan-3", action := none, target := none, changes := none,
    newData := none, batch := none }

/-- Arguments whose batch names a single unregistered action. -/
def singleUnknownArgs : AgenticArgs Nat :=
  { entityId := "plan-4", action := none, target := none, changes := none,
    newData := none, batch := some [mkItem "missing_action"] }

/-- A CRUD handler that reports success with the given message. -/
def okCrudHandler (msg : String) : CrudHandler Nat :=
  fun _ _ => Except.ok (successResult msg none none)

/-- A CRUD handler that reports failure with error "boom". -/
def failCrudHandler : CrudHandler Nat :=
  fun _ _ => Except.ok (errorResult "boom")

/-- A CRUD config with batch support, one failing operation. -/
def sampleCrudCfg : CrudToolConfig Nat :=
  { handlers := [("create", okCrudHandler "Created"),
                 ("update", failCrudHandler),
                 ("read", okCrudHandler "Read")],
    batchSupported := true }

/-- A CRUD batch item with the given operation and no payloads. -/
def mkOp (s : String) : BatchOperationItem Nat :=
  { operation := s, target := none, data := none }

/-- CRUD arguments carrying the given batch. -/
def mkCrudArgs (batch : List (BatchOperationItem Nat)) : CrudArgs Nat :=
  { operation := "create", target := none, data := none, batch := some batch }

/-- A record whose every field is the given string. -/
def recOf (s : String) : JsRecord := fun _ => JsFieldValue.str s

/-- A record whose every field is a non-string value. -/
def nonStrRec : JsRecord := fun _ => JsFieldValue.nonString

/-- A store with the plain list semantics: create appends, update maps over
the rows by id; both always succeed. -/
def listStore (Row Snap Upd : Type) (getId : Row → String)
    (applyUpd : Upd → Row → Row) : TxStore Row Snap Upd :=
  { createSnapshot := fun s db =>
      Except.ok
        { db with
          snapshots := db.snapshots ++ [s],
          writeLog := db.writeLog ++ [WriteOp.snapshotCreate] },
    updateRow := fun id u db =>
      Except.ok
        { db with
          rows := db.rows.map (fun r => if getId r = id then applyUpd u r else r),
          writeLog := db.writeLog ++ [WriteOp.liveUpdate] } }

/-- A concrete pre-edit nutrition row at version 3. -/
def sampleNutritionRow : NutritionPlanRow Nat :=
  { id := "plan-9", userId := "user-1", version := 3, name := "Cut",
    description := "cutting plan", goals := ["fat loss"], durationWeeks := 4,
    targetMacros := 11, weeks := 22, restrictions := [], preferences := [],
    status := "ACTIVE", metadata := none }

/-- Concrete new content for the nutrition row. -/
def sampleNutritionPd : NutritionPersistenceData Nat :=
  { name := "Cut v2", description := "updated", goals := ["fat loss"],
    durationWeeks := 4, targetMacros := 11, weeks := 33, restrictions := [],
    preferences := [], status := "ACTIVE", metadata := none }

/-- A one-row nutrition database. -/
def sampleNutritionDb : VersionedDb (NutritionPlanRow Nat) (NutritionPlanVersionRow Nat) :=
  { rows := [sampleNutritionRow], snapshots := [], writeLog := [] }

/-- The concrete nutrition list store. -/
def sampleNutritionStore :
    TxStore (NutritionPlanRow Nat) (NutritionPlanVersionRow Nat)
      (NutritionPersistenceData Nat) :=
  listStore _ _ _ (fun r => r.id) applyNutritionUpdate

/-! ### Helper lemmas about the agentic engine -/

/-- `jsIncludes` decides the `List.IsInfix` relation. -/
theorem jsIncludes_spec (hay needle : List Char) :
    jsIncludes hay needle = true ↔ needle <:+: hay := by
  induction hay with
  | nil =>
    simp [jsIncludes, List.isPrefixOf_iff_prefix]
  | cons h t ih =>
    rw [jsIncludes]
    simp only [Bool.or_eq_true, List.isPrefixOf_iff_prefix, ih]
    exact (List.infix_cons_iff (a := h)).symm

/-- The modification loop emits one outcome line per input item. -/
theorem runMods_snd_length {E V : Type} (actions : List (String × AgenticActionHandler E V))
    (entity : E) (mods : List (ModificationItem V)) :
    (runMods actions entity mods).2.length = mods.length := by
  induction mods generalizing entity with
  | nil => rfl
  | cons m ms ih => simp [runMods, ih]

/-- Unfolding of the loop on a cons cell. -/
theorem runMods_cons {E V : Type} (actions : List (String × AgenticActionHandler E V))
    (entity : E) (m : ModificationItem V) (ms : List (ModificationItem V)) :
    runMods actions entity (m :: ms) =
      ((runMods actions (applyMod actions entity m).1 ms).1,
       (applyMod actions entity m).2 :: (runMods actions (applyMod actions entity m).1 ms).2) := rfl

/-- The i-th outcome line is produced by applying the i-th input item to the
entity obtained from the first i items. -/
theorem runMods_outcome_at {E V : Type} (actions : List (String × AgenticActionHandler E V))
    (entity : E) (mods : List (ModificationItem V)) (i : Nat) (h : i < mods.length) :
    (runMods actions entity mods).2[i]? =
      some (applyMod actions (runMods actions entity (mods.take i)).1
        (mods.get ⟨i, h⟩)).2 := by
  induction mods generalizing entity i with
  | nil => cases h
  | cons m ms ih =>
    cases i with
    | zero => simp [runMods]
    | succ j =>
      have hj : j < ms.length := Nat.lt_of_succ_lt_succ h
      simpa [runMods] using ih (applyMod actions entity m).1 j hj

/-- When the pipeline reaches the modification loop, the execute function is
the loop followed by the finishing steps. -/
theorem agenticExecute_eq_finish {E V : Type} (cfg : AgenticToolConfig E V)
    (args : AgenticArgs V) (entity : E)
    (hres : cfg.resolveEntity args.entityId = Except.ok (some entity))
    (hval : validationFailure (T := AgenticMeta) cfg entity = none)
    (hne : buildModifications args ≠ []) :
    agenticExecute cfg args =
      agenticFinish cfg args.entityId
        (runMods cfg.actions entity (buildModifications args)).1
        (runMods cfg.actions entity (buildModifications args)).2 := by
  have hlen : ¬((buildModifications args).length = 0) := by
    simpa [List.length_eq_zero] using hne
  unfold agenticExecute
  rw [hres]
  dsimp only
  rw [hval]
  dsimp only
  rw [if_neg hlen]

/-- Finishing steps when the save fails: the save error becomes the overall
error result, and the save was attempted once. -/
theorem agenticFinish_save_error {E V : Type} (cfg : AgenticToolConfig E V)
    (entityId : String) (current0 current : E) (results : List String) (e : String)
    (hb : runBeforeSave cfg current0 = Except.ok current)
    (hs : cfg.saveEntity entityId current = Except.error e) :
    agenticFinish cfg entityId current0 results =
      (Except.ok (errorResult ("Save failed: " ++ e)), [current]) := by
  unfold agenticFinish
  rw [hb]
  dsimp only
  rw [hs]

/-- Finishing steps when the save succeeds: aggregate success result with the
joined outcome lines and the marker counts, and the save happened once. -/
theorem agenticFinish_save_ok {E V : Type} (cfg : AgenticToolConfig E V)
    (entityId : String) (current0 current : E) (results : List String)
    (hb : runBeforeSave cfg current0 = Except.ok current)
    (hs : cfg.saveEntity entityId current = Except.ok ())
    (ha : runAfterSave cfg current = Except.ok ()) :
    agenticFinish cfg entityId current0 results =
      (Except.ok (successResult (String.intercalate "\n" results)
        (some { entityId := entityId,
                modificationsApplied :=
                  (results.filter (fun r => jsStartsWith r "✅")).length,
                errors := (results.filter (fun r => jsStartsWith r "❌")).length })
        none),
       [current]) := by
  unfold agenticFinish
  rw [hb]
  dsimp only
  rw [hs]
  dsimp only
  rw [ha]

/-- When every item in the batch names an unregistered action, the loop
leaves the entity untouched and emits one unknown-action line per item. -/
theorem runMods_all_unknown {E V : Type} (actions : List (String × AgenticActionHandler E V))
    (entity : E) (mods : List (ModificationItem V))
    (h : ∀ m ∈ mods, actions.lookup m.action = none) :
    runMods actions entity mods =
      (entity, mods.map (fun m => "❌ Unknown action: " ++ m.action)) := by
  induction mods with
  | nil => rfl
  | cons m ms ih =>
    have hm := h m (List.mem_cons_self m ms)
    have hms : ∀ x ∈ ms, actions.lookup x.action = none :=
      fun x hx => h x (List.mem_cons_of_mem m hx)
    simp [runMods, applyMod, hm, ih hms]

/-- An unknown-action line does not carry the success marker. -/
theorem unknown_line_no_success_marker (s : String) :
    jsStartsWith ("❌ Unknown action: " ++ s) "✅" = false := by
  have h : ("❌ Unknown action: " ++ s).data =
      '❌' :: (" Unknown action: ".data ++ s.data) := by
    rw [String.data_append]
    rfl
  rw [jsStartsWith, h]
  show List.isPrefixOf ('✅' :: "".data) _ = false
  simp [List.isPrefixOf]

/-- An unknown-action line carries the failure marker. -/
theorem unknown_line_error_marker (s : String) :
    jsStartsWith ("❌ Unknown action: " ++ s) "❌" = true := by
  have h : ("❌ Unknown action: " ++ s).data =
      '❌' :: (" Unknown action: ".data ++ s.data) := by
    rw [String.data_append]
    rfl
  rw [jsStartsWith, h]
  show List.isPrefixOf ('❌' :: "".data) _ = true
  simp [List.isPrefixOf]

/-! ### Helper lemmas about the CRUD batch loop -/

/-- When every item succeeds, the loop completes with one message per item
and invokes every handler in input order. -/
theorem crudBatchLoop_all_ok {V : Type} (handlers : List (String × CrudHandler V))
    (batch : List (BatchOperationItem V))
    (h : ∀ item ∈ batch, crudItemSucceeds handlers item) :
    ∃ messages, messages.length = batch.length ∧
      crudBatchLoop handlers batch =
        (CrudBatchOutcome.done messages, batch.map (fun i => i.operation)) := by
  induction batch with
  | nil => exact ⟨[], rfl, rfl⟩
  | cons item rest ih =>
    obtain ⟨handler, result, hl, hr, hsucc⟩ := h item (List.mem_cons_self item rest)
    obtain ⟨messages, hmlen, hrest⟩ := ih (fun x hx => h x (List.mem_cons_of_mem item hx))
    refine ⟨result.message :: messages, by simp [hmlen], ?_⟩
    rw [crudBatchLoop, hl]
    dsimp only
    rw [hr]
    dsimp only
    rw [if_pos hsucc, hrest]
    rfl

/-- Fail-fast: with all of `good` succeeding, an unknown operation at `bad`
aborts the batch naming that operation, with no handler of `bad` or of any
later item invoked. -/
theorem crudBatchLoop_unknown_aborts {V : Type} (handlers : List (String × CrudHandler V))
    (good : List (BatchOperationItem V)) (bad : BatchOperationItem V)
    (rest : List (BatchOperationItem V))
    (hgood : ∀ item ∈ good, crudItemSucceeds handlers item)
    (hbad : handlers.lookup bad.operation = none) :
    crudBatchLoop handlers (good ++ bad :: rest) =
      (CrudBatchOutcome.aborted
        (errorResult ("Unknown operation in batch: " ++ bad.operation)),
       good.map (fun i => i.operation)) := by
  induction good with
  | nil =>
    rw [List.nil_append, crudBatchLoop, hbad]
    rfl
  | cons item gs ih =>
    obtain ⟨handler, result, hl, hr, hsucc⟩ := hgood item (List.mem_cons_self item gs)
    have ih2 := ih (fun x hx => hgood x (List.mem_cons_of_mem item hx))
    rw [List.cons_append, crudBatchLoop, hl]
    dsimp only
    rw [hr]
    dsimp only
    rw [if_pos hsucc, ih2]
    rfl

/-- Fail-fast: with all of `good` succeeding, a handler result with
`success == false` at `bad` aborts the batch naming that operation and its
error, with no later handler invoked. -/
theorem crudBatchLoop_failure_aborts {V : Type} (handlers : List (String × CrudHandler V))
    (good : List (BatchOperationItem V)) (bad : BatchOperationItem V)
    (rest : List (BatchOperationItem V)) (handler : CrudHandler V)
    (result : ModificationResult (List String))
    (hgood : ∀ item ∈ good, crudItemSucceeds handlers item)
    (hl : handlers.lookup bad.operation = some handler)
    (hr : handler bad.target bad.data = Except.ok result)
    (hfail : result.success = false) :
    crudBatchLoop handlers (good ++ bad :: rest) =
      (CrudBatchOutcome.aborted
        (errorResult ("Batch failed at operation " ++ bad.operation ++ ": " ++
          jsInterpolate result.error)),
       good.map (fun i => i.operation) ++ [bad.operation]) := by
  induction good with
  | nil =>
    rw [List.nil_append, crudBatchLoop, hl]
    dsimp only
    rw [hr]
    dsimp only
    rw [if_neg (by simp [hfail]), List.map_nil, List.nil_append]
  | cons item gs ih =>
    obtain ⟨handler2, result2, hl2, hr2, hsucc2⟩ := hgood item (List.mem_cons_self item gs)
    have ih2 := ih (fun x hx => hgood x (List.mem_cons_of_mem item hx))
    rw [List.cons_append, crudBatchLoop, hl2]
    dsimp only
    rw [hr2]
    dsimp only
    rw [if_pos hsucc2, ih2]
    rfl

/-! ### Helper lemma about the commit transaction -/

/-- Characterization of the snapshot-then-update transaction over any store
respecting the append / map-by-id contracts: on success the snapshot table
gains exactly the given record, the targeted row is replaced by its updated
version (and only id-matching rows are touched), and the write log shows the
snapshot landing before the update; on failure the database is unchanged. -/
theorem commit_spec {Row Snap Upd : Type} (getId : Row → String)
    (applyUpd : Upd → Row → Row) (st : TxStore Row Snap Upd)
    (hc : HonestCreate st) (hu : HonestUpdate getId applyUpd st)
    (snap : Snap) (id : String) (upd : Upd) (target : Row)
    (db db' : VersionedDb Row Snap)
    (hrow : ∀ r ∈ db.rows, getId r = id → r = target)
    (hmem : target ∈ db.rows) (hid : getId target = id) :
    (runTransaction (txBody st snap id upd) db = (db', none) →
      db'.snapshots = db.snapshots ++ [snap] ∧
      applyUpd upd target ∈ db'.rows ∧
      (∀ r ∈ db'.rows, getId r = id → r = applyUpd upd target) ∧
      db'.writeLog = db.writeLog ++ [WriteOp.snapshotCreate, WriteOp.liveUpdate]) ∧
    (∀ e, runTransaction (txBody st snap id upd) db = (db', some e) → db' = db) := by
  constructor
  · intro h
    unfold runTransaction txBody at h
    cases hcr : st.createSnapshot snap db with
    | error e =>
      rw [hcr] at h
      simp only [Except.bind] at h
      simp at h
    | ok db1 =>
      rw [hcr] at h
      simp only [Except.bind] at h
      cases hup : st.updateRow id upd db1 with
      | error e =>
        rw [hup] at h
        simp at h
      | ok db2 =>
        rw [hup] at h
        dsimp only at h
        rw [Prod.mk.injEq] at h
        obtain ⟨hdb2, -⟩ := h
        obtain ⟨hs1, hr1, hw1⟩ := hc snap db db1 hcr
        obtain ⟨hr2, hs2, hw2⟩ := hu id upd db1 db2 hup
        subst hdb2
        refine ⟨by rw [hs2, hs1], ?_, ?_, by rw [hw2, hw1, List.append_assoc]; rfl⟩
        · rw [hr2, hr1]
          exact List.mem_map.mpr ⟨target, hmem, by rw [hid, if_pos rfl]⟩
        · intro r hrmem hrid
          rw [hr2, hr1] at hrmem
          obtain ⟨r0, hr0mem, hr0eq⟩ := List.mem_map.mp hrmem
          by_cases h0 : getId r0 = id
          · rw [if_pos h0] at hr0eq
            rw [← hr0eq, hrow r0 hr0mem h0]
          · rw [if_neg h0] at hr0eq
            rw [← hr0eq] at hrid
            exact absurd hrid h0
  · intro e h
    unfold runTransaction at h
    cases hbody : txBody st snap id upd db with
    | error e2 =>
      rw [hbody] at h
      dsimp only at h
      rw [Prod.mk.injEq] at h
      exact h.1.symm
    | ok db2 =>
      rw [hbody] at h
      simp at h

/-- The list store respects the create contract. -/
theorem listStore_honestCreate (Row Snap Upd : Type) (getId : Row → String)
    (applyUpd : Upd → Row → Row) :
    HonestCreate (listStore Row Snap Upd getId applyUpd) := by
  intro s db db' h
  simp only [listStore, Except.ok.injEq] at h
  rw [← h]
  exact ⟨rfl, rfl, rfl⟩

/-- The list store respects the update contract. -/
theorem listStore_honestUpdate (Row Snap Upd : Type) (getId : Row → String)
    (applyUpd : Upd → Row → Row) :
    HonestUpdate getId applyUpd (listStore Row Snap Upd getId applyUpd) := by
  intro id u db db' h
  simp only [listStore, Except.ok.injEq] at h
  rw [← h]
  exact ⟨rfl, rfl, rfl⟩

/-! ### Claim theorems -/

/-- C1: for every list of N modification items reaching the modification
loop of the execute function built by `createAgenticTool` (the loop is
`runMods`, which `agenticExecute` invokes once the entity has resolved and
validated and the list is non-empty), the per-item outcome list has exactly
N entries, and the i-th entry is the single line produced by the i-th input
item — whether it is an unknown action, a failed validation, a thrown
handler, or a success — so no item is silently dropped. -/
theorem claim1_outcome_per_item {E V : Type}
    (actions : List (String × AgenticActionHandler E V)) (entity : E)
    (mods : List (ModificationItem V)) :
    (runMods actions entity mods).2.length = mods.length ∧
    ∀ i : Fin mods.length,
      (runMods actions entity mods).2[i.1]? =
        some (applyMod actions (runMods actions entity (mods.take i.1)).1
          (mods.get i)).2 := by
  refine ⟨runMods_snd_length actions entity mods, ?_⟩
  intro i
  exact runMods_outcome_at actions entity mods i.1 i.2

/-- C1 witness: the invariant evaluated on a concrete two-item batch whose
second item names an unregistered action. -/
theorem claim1_outcome_per_item_witness :
    (runMods sampleActions 0 [mkItem "add_meal", mkItem "nope"]).2.length = 2 ∧
    (runMods sampleActions 0 [mkItem "add_meal", mkItem "nope"]).2[1]? =
      some "❌ Unknown action: nope" := by
  have h := claim1_outcome_per_item sampleActions 0 [mkItem "add_meal", mkItem "nope"]
  refine ⟨h.1, ?_⟩
  have h2 := h.2 ⟨1, by decide⟩
  rw [h2]
  rfl

/-- C2: a per-item failure never aborts the batch: the loop on `m :: ms`
always processes `ms` from the post-item entity, whatever outcome `m`
produced; and in the concrete three-item scenario where the middle handler
throws "bad weight", the aggregate result reports 2 successes and 1 failure,
the message contains "bad weight", and `saveEntity` is still invoked (once,
with the entity carrying the 2 successful changes). -/
theorem claim2_partial_failure :
    (∀ (E V : Type) (actions : List (String × AgenticActionHandler E V))
        (entity : E) (m : ModificationItem V) (ms : List (ModificationItem V)),
      runMods actions entity (m :: ms) =
        ((runMods actions (applyMod actions entity m).1 ms).1,
         (applyMod actions entity m).2 ::
           (runMods actions (applyMod actions entity m).1 ms).2)) ∧
    agenticExecute sampleCfg sampleBatchArgs =
      (Except.ok
        { success := true,
          message := "✅ add_meal completed\n❌ set_weight failed: bad weight\n✅ add_note completed",
          updated := some { entityId := "plan-1", modificationsApplied := 2, errors := 1 },
          affectedCount := none, error := none },
       [2]) ∧
    jsIncludes
      "✅ add_meal completed\n❌ set_weight failed: bad weight\n✅ add_note completed".data
      "bad weight".data = true := by
  refine ⟨fun E V actions entity m ms => runMods_cons actions entity m ms, ?_, by decide⟩
  rfl

/-- C3: every successful commit of `modifyNutritionDay` (and analogously
`modifyWorkoutWeek`) appends exactly one version-snapshot record whose
captured fields and version equal the pre-edit row, writes it before the
live-row update, bumps the live row's version by exactly 1, and runs both
writes in one atomic transaction (on failure the database is unchanged) —
for any store whose create/update statements respect their contracts. -/
theorem claim3_versioned_commit :
    (∀ (J : Type)
        (st : TxStore (NutritionPlanRow J) (NutritionPlanVersionRow J)
          (NutritionPersistenceData J)),
      HonestCreate st →
      HonestUpdate (fun r => r.id) applyNutritionUpdate st →
      ∀ (snapId userId planId : String) (planToUpdate : NutritionPlanRow J)
        (pd : NutritionPersistenceData J)
        (db db' : VersionedDb (NutritionPlanRow J) (NutritionPlanVersionRow J)),
        (∀ r ∈ db.rows, r.id = planId → r = planToUpdate) →
        planToUpdate ∈ db.rows →
        planToUpdate.id = planId →
        ((nutritionCommit st snapId userId planId planToUpdate pd db = (db', none) →
            db'.snapshots =
              db.snapshots ++ [nutritionSnapshotOf snapId userId planToUpdate] ∧
            (nutritionSnapshotOf snapId userId planToUpdate).version =
              planToUpdate.version ∧
            (nutritionSnapshotOf snapId userId planToUpdate).name = planToUpdate.name ∧
            (nutritionSnapshotOf snapId userId planToUpdate).description =
              planToUpdate.description ∧
            (nutritionSnapshotOf snapId userId planToUpdate).weeks = planToUpdate.weeks ∧
            applyNutritionUpdate pd planToUpdate ∈ db'.rows ∧
            (∀ r ∈ db'.rows, r.id = planId → r = applyNutritionUpdate pd planToUpdate) ∧
            (applyNutritionUpdate pd planToUpdate).version = planToUpdate.version + 1 ∧
            db'.writeLog =
              db.writeLog ++ [WriteOp.snapshotCreate, WriteOp.liveUpdate]) ∧
          (∀ e, nutritionCommit st snapId userId planId planToUpdate pd db = (db', some e) →
            db' = db))) ∧
    (∀ (J : Type)
        (st : TxStore (WorkoutProgramRow J) (WorkoutProgramVersionRow J)
          (WorkoutPersistenceData J)),
      HonestCreate st →
      HonestUpdate (fun r => r.id) applyWorkoutUpdate st →
      ∀ (snapId userId programId : String) (programToUpdate : WorkoutProgramRow J)
        (pd : WorkoutPersistenceData J)
        (db db' : VersionedDb (WorkoutProgramRow J) (WorkoutProgramVersionRow J)),
        (∀ r ∈ db.rows, r.id = programId → r = programToUpdate) →
        programToUpdate ∈ db.rows →
        programToUpdate.id = programId →
        ((workoutCommit st snapId userId programId programToUpdate pd db = (db', none) →
            db'.snapshots =
              db.snapshots ++ [workoutSnapshotOf snapId userId programToUpdate] ∧
            (workoutSnapshotOf snapId userId programToUpdate).version =
              programToUpdate.version ∧
            (workoutSnapshotOf snapId userId programToUpdate).name =
              programToUpdate.name ∧
            (workoutSnapshotOf snapId userId programToUpdate).weeks =
              programToUpdate.weeks ∧
            applyWorkoutUpdate pd programToUpdate ∈ db'.rows ∧
            (∀ r ∈ db'.rows, r.id = programId → r = applyWorkoutUpdate pd programToUpdate) ∧
            (applyWorkoutUpdate pd programToUpdate).version =
              programToUpdate.version + 1 ∧
            db'.writeLog =
              db.writeLog ++ [WriteOp.snapshotCreate, WriteOp.liveUpdate]) ∧
          (∀ e, workoutCommit st snapId userId programId programToUpdate pd db = (db', some e) →
            db' = db))) := by
  constructor
  · intro J st hc hu snapId userId planId planToUpdate pd db db' hrow hmem hid
    have h := commit_spec (fun r => r.id) applyNutritionUpdate st hc hu
      (nutritionSnapshotOf snapId userId planToUpdate) planId pd planToUpdate db db'
      hrow hmem hid
    refine ⟨fun hok => ?_, h.2⟩
    obtain ⟨h1, h2, h3, h4⟩ := h.1 hok
    exact ⟨h1, rfl, rfl, rfl, rfl, h2, h3, rfl, h4⟩
  · intro J st hc hu snapId userId programId programToUpdate pd db db' hrow hmem hid
    have h := commit_spec (fun r => r.id) applyWorkoutUpdate st hc hu
      (workoutSnapshotOf snapId userId programToUpdate) programId pd programToUpdate db db'
      hrow hmem hid
    refine ⟨fun hok => ?_, h.2⟩
    obtain ⟨h1, h2, h3, h4⟩ := h.1 hok
    exact ⟨h1, rfl, rfl, rfl, h2, h3, rfl, h4⟩

/-- C3 witness: the commit evaluated on the concrete one-row database — the
snapshot captures version 3, the live row moves to version 4, and the write
log shows snapshot-then-update. -/
theorem claim3_versioned_commit_witness :
    (nutritionCommit sampleNutritionStore "snap-1" "user-1" "plan-9"
        sampleNutritionRow sampleNutritionPd sampleNutritionDb).1.snapshots =
      [nutritionSnapshotOf "snap-1" "user-1" sampleNutritionRow] ∧
    (nutritionSnapshotOf "snap-1" "user-1" sampleNutritionRow).version = 3 ∧
    applyNutritionUpdate sampleNutritionPd sampleNutritionRow ∈
      (nutritionCommit sampleNutritionStore "snap-1" "user-1" "plan-9"
        sampleNutritionRow sampleNutritionPd sampleNutritionDb).1.rows ∧
    (applyNutritionUpdate sampleNutritionPd sampleNutritionRow).version = 4 ∧
    (nutritionCommit sampleNutritionStore "snap-1" "user-1" "plan-9"
        sampleNutritionRow sampleNutritionPd sampleNutritionDb).1.writeLog =
      [WriteOp.snapshotCreate, WriteOp.liveUpdate] := by
  have h := (claim3_versioned_commit.1 Nat sampleNutritionStore
    (listStore_honestCreate _ _ _ _ _) (listStore_honestUpdate _ _ _ _ _)
    "snap-1" "user-1" "plan-9" sampleNutritionRow sampleNutritionPd
    sampleNutritionDb
    (nutritionCommit sampleNutritionStore "snap-1" "user-1" "plan-9"
      sampleNutritionRow sampleNutritionPd sampleNutritionDb).1
    (by decide) (by decide) (by decide)).1 rfl
  obtain ⟨h1, h2, -, -, -, h6, -, h8, h9⟩ := h
  exact ⟨by simpa [sampleNutritionDb] using h1, h2, h6, h8,
    by simpa [sampleNutritionDb] using h9⟩

/-- C4: once the pipeline has reached the loop (entity resolved and valid,
modification list non-empty) and the `beforeSave` hook has produced the
entity to persist, the aggregate result's `success` tracks exactly the fate
of `saveEntity`: a save error yields the overall error result carrying
"Save failed: ..." in its `error` field (distinct from the per-item outcome
lines), and a successful save yields `success == true` with the joined
per-item lines and the marker counts — whatever the per-item outcomes
were, including all-failed. -/
theorem claim4_success_iff_save {E V : Type} (cfg : AgenticToolConfig E V)
    (args : AgenticArgs V) (entity current : E)
    (hres : cfg.resolveEntity args.entityId = Except.ok (some entity))
    (hval : validationFailure (T := AgenticMeta) cfg entity = none)
    (hne : buildModifications args ≠ [])
    (hb : runBeforeSave cfg
      (runMods cfg.actions entity (buildModifications args)).1 = Except.ok current) :
    (∀ e, cfg.saveEntity args.entityId current = Except.error e →
      agenticExecute cfg args =
        (Except.ok (errorResult ("Save failed: " ++ e)), [current]) ∧
      (errorResult ("Save failed: " ++ e) : ModificationResult AgenticMeta).success
        = false ∧
      (errorResult ("Save failed: " ++ e) : ModificationResult AgenticMeta).error
        = some ("Save failed: " ++ e)) ∧
    (cfg.saveEntity args.entityId current = Except.ok () →
     runAfterSave cfg current = Except.ok () →
      agenticExecute cfg args =
        (Except.ok (successResult
          (String.intercalate "\n"
            (runMods cfg.actions entity (buildModifications args)).2)
          (some { entityId := args.entityId,
                  modificationsApplied :=
                    ((runMods cfg.actions entity (buildModifications args)).2.filter
                      (fun r => jsStartsWith r "✅")).length,
                  errors :=
                    ((runMods cfg.actions entity (buildModifications args)).2.filter
                      (fun r => jsStartsWith r "❌")).length })
          none),
         [current]) ∧
      (successResult
        (String.intercalate "\n"
          (runMods cfg.actions entity (buildModifications args)).2)
        (none : Option AgenticMeta) none).success = true) := by
  rw [agenticExecute_eq_finish cfg args entity hres hval hne]
  constructor
  · intro e hsave
    exact ⟨agenticFinish_save_error cfg args.entityId _ current _ e hb hsave, rfl, rfl⟩
  · intro hsave hafter
    exact ⟨agenticFinish_save_ok cfg args.entityId _ current _ hb hsave hafter, rfl⟩

/-- C4 witness: both branches evaluated concretely — a failing save on the
three-item batch yields the overall error result, and a successful save on a
batch whose items all fail still yields `success == true` with zero applied
modifications. -/
theorem claim4_success_iff_save_witness :
    agenticExecute saveFailCfg sampleBatchArgs =
      (Except.ok (errorResult "Save failed: database unavailable"), [2]) ∧
    agenticExecute plainCfg unknownOnlyArgs =
      (Except.ok (successResult
        "❌ Unknown action: ghost_action\n❌ Unknown action: phantom_action"
        (some { entityId := "plan-2", modificationsApplied := 0, errors := 2 })
        none),
       [0]) := by
  constructor
  · have h := (claim4_success_iff_save saveFailCfg sampleBatchArgs 0 2
      rfl rfl (by decide) rfl).1 "database unavailable" rfl
    exact h.1
  · have h := (claim4_success_iff_save plainCfg unknownOnlyArgs 0 0
      rfl rfl (by decide) rfl).2 rfl rfl
    simpa using h.1

/-- C5 counterexample: an exception thrown by `resolveEntity` is not caught
by the execute function — it propagates to the caller instead of being
returned as a structured result, contradicting the claim that no step of
the pipeline lets an exception escape. -/
theorem claim5_counterexample :
    (agenticExecute throwingResolveCfg emptyArgs).1 =
      Except.error "resolver exploded" := rfl

/-- C5 amended: the execute function returns a structured result for the
four fatal categories and catches handler and `saveEntity` exceptions, but
exceptions thrown by `resolveEntity`, `beforeSave` or `afterSave` propagate
uncaught; whenever those three steps do not throw, every input produces a
structured `ModificationResult`. -/
theorem claim5_exception_containment {E V : Type} (cfg : AgenticToolConfig E V)
    (args : AgenticArgs V)
    (hres : ∀ e, cfg.resolveEntity args.entityId ≠ Except.error e)
    (hb : ∀ x e, runBeforeSave cfg x ≠ Except.error e)
    (ha : ∀ x e, runAfterSave cfg x ≠ Except.error e) :
    ∃ r, (agenticExecute cfg args).1 = Except.ok r := by
  unfold agenticExecute
  cases hr : cfg.resolveEntity args.entityId with
  | error e => exact absurd hr (hres e)
  | ok o =>
    cases o with
    | none => exact ⟨_, rfl⟩
    | some entity =>
      dsimp only
      cases hv : validationFailure (T := AgenticMeta) cfg entity with
      | some r => exact ⟨r, rfl⟩
      | none =>
        dsimp only
        by_cases hlen : (buildModifications args).length = 0
        · rw [if_pos hlen]
          exact ⟨_, rfl⟩
        · rw [if_neg hlen]
          unfold agenticFinish
          cases hbs : runBeforeSave cfg
              (runMods cfg.actions entity (buildModifications args)).1 with
          | error e => exact absurd hbs (hb _ e)
          | ok current =>
            dsimp only
            cases hs : cfg.saveEntity args.entityId current with
            | error e => exact ⟨_, rfl⟩
            | ok u =>
              dsimp only
              cases has : runAfterSave cfg current with
              | error e => exact absurd has (ha _ e)
              | ok u2 => exact ⟨_, rfl⟩

/-- C5 amended witness: containment evaluated on a benign configuration. -/
theorem claim5_exception_containment_witness :
    ∃ r, (agenticExecute plainCfg sampleBatchArgs).1 = Except.ok r := by
  refine claim5_exception_containment plainCfg sampleBatchArgs ?_ ?_ ?_
  · intro e h
    simp [plainCfg] at h
  · intro x e h
    simp [runBeforeSave, plainCfg] at h
  · intro x e h
    simp [runAfterSave, plainCfg] at h

/-- C6: with the entity resolved and valid but neither a non-empty batch nor
a truthy single action, the execute function returns the no-modification
error result at once: no handler runs and `saveEntity` is never invoked (the
save log is empty), so the entity is untouched. -/
theorem claim6_no_modification {E V : Type} (cfg : AgenticToolConfig E V)
    (args : AgenticArgs V) (entity : E)
    (hres : cfg.resolveEntity args.entityId = Except.ok (some entity))
    (hval : validationFailure (T := AgenticMeta) cfg entity = none)
    (hbatch : args.batch = none ∨ args.batch = some [])
    (haction : args.action = none ∨ args.action = some "") :
    agenticExecute cfg args =
      (Except.ok (errorResult
        "No modification specified. Provide action+target or batch array."), []) := by
  have hsingle : singleModificationOf args = [] := by
    rcases haction with h | h <;> simp [singleModificationOf, h]
  have hmods : buildModifications args = [] := by
    rcases hbatch with h | h <;> simp [buildModifications, h, hsingle]
  unfold agenticExecute
  rw [hres]
  dsimp only
  rw [hval]
  dsimp only
  rw [hmods]
  rfl

/-- C6 witness: the no-modification result on concrete empty arguments. -/
theorem claim6_no_modification_witness :
    agenticExecute plainCfg emptyArgs =
      (Except.ok (errorResult
        "No modification specified. Provide action+target or batch array."), []) :=
  claim6_no_modification plainCfg emptyArgs 0 rfl rfl (Or.inl rfl) (Or.inl rfl)

/-- C7: the CRUD batch mode is fail-fast, in contrast to the agentic engine:
items run in input order; the first item whose operation is unregistered, or
whose handler reports `success == false`, produces an immediate error result
naming that operation and stops the batch (the invocation log shows no later
handler ran); only when every item succeeds does the tool return a success
result reporting the batch length. -/
theorem claim7_crud_failfast {V : Type} (cfg : CrudToolConfig V) (args : CrudArgs V)
    (hsup : cfg.batchSupported = true) :
    (∀ batch, args.batch = some batch → batch ≠ [] →
      (∀ item ∈ batch, crudItemSucceeds cfg.handlers item) →
      ∃ messages, messages.length = batch.length ∧
        crudExecute cfg args =
          (Except.ok (successResult
            ("Batch completed: " ++ toString batch.length ++ " operations")
            (some messages) none),
           batch.map (fun i => i.operation))) ∧
    (∀ good bad rest, args.batch = some (good ++ bad :: rest) →
      (∀ item ∈ good, crudItemSucceeds cfg.handlers item) →
      cfg.handlers.lookup bad.operation = none →
      crudExecute cfg args =
        (Except.ok (errorResult ("Unknown operation in batch: " ++ bad.operation)),
         good.map (fun i => i.operation))) ∧
    (∀ good bad rest handler result, args.batch = some (good ++ bad :: rest) →
      (∀ item ∈ good, crudItemSucceeds cfg.handlers item) →
      cfg.handlers.lookup bad.operation = some handler →
      handler bad.target bad.data = Except.ok result →
      result.success = false →
      crudExecute cfg args =
        (Except.ok (errorResult ("Batch failed at operation " ++ bad.operation ++
          ": " ++ jsInterpolate result.error)),
         good.map (fun i => i.operation) ++ [bad.operation])) := by
  refine ⟨?_, ?_, ?_⟩
  · intro batch hbatch hne hall
    obtain ⟨messages, hmlen, hloop⟩ := crudBatchLoop_all_ok cfg.handlers batch hall
    refine ⟨messages, hmlen, ?_⟩
    unfold crudExecute
    rw [hbatch]
    dsimp only
    rw [if_pos (by simpa [List.length_pos] using hne), if_pos hsup, hloop]
  · intro good bad rest hbatch hgood hbad
    have hloop := crudBatchLoop_unknown_aborts cfg.handlers good bad rest hgood hbad
    unfold crudExecute
    rw [hbatch]
    dsimp only
    rw [if_pos (by simp), if_pos hsup, hloop]
  · intro good bad rest handler result hbatch hgood hl hr hfail
    have hloop := crudBatchLoop_failure_aborts cfg.handlers good bad rest handler
      result hgood hl hr hfail
    unfold crudExecute
    rw [hbatch]
    dsimp only
    rw [if_pos (by simp), if_pos hsup, hloop]

/-- C7 witness: the three behaviours on concrete batches — all-success
completes reporting the length, an unknown operation aborts before invoking
anything, and a failing handler aborts with only the prior successes and
itself invoked. -/
theorem claim7_crud_failfast_witness :
    crudExecute sampleCrudCfg (mkCrudArgs [mkOp "create", mkOp "read"]) =
      (Except.ok (successResult "Batch completed: 2 operations"
        (some ["Created", "Read"]) none),
       ["create", "read"]) ∧
    crudExecute sampleCrudCfg (mkCrudArgs [mkOp "create", mkOp "drop", mkOp "read"]) =
      (Except.ok (errorResult "Unknown operation in batch: drop"), ["create"]) ∧
    crudExecute sampleCrudCfg (mkCrudArgs [mkOp "create", mkOp "update", mkOp "read"]) =
      (Except.ok (errorResult "Batch failed at operation update: boom"),
       ["create", "update"]) := by
  have hok : ∀ item ∈ [mkOp "create", mkOp "read"],
      crudItemSucceeds sampleCrudCfg.handlers item := by
    intro item hitem
    have hcase : item = mkOp "create" ∨ item = mkOp "read" := by simpa using hitem
    rcases hcase with h | h <;> subst h
    · exact ⟨okCrudHandler "Created", successResult "Created" none none, rfl, rfl, rfl⟩
    · exact ⟨okCrudHandler "Read", successResult "Read" none none, rfl, rfl, rfl⟩
  have hcreate : ∀ item ∈ [mkOp "create"],
      crudItemSucceeds sampleCrudCfg.handlers item := by
    intro item hitem
    have hcase : item = mkOp "create" := by simpa using hitem
    subst hcase
    exact ⟨okCrudHandler "Created", successResult "Created" none none, rfl, rfl, rfl⟩
  refine ⟨?_, ?_, ?_⟩
  · obtain ⟨messages, hmlen, heq⟩ :=
      (claim7_crud_failfast sampleCrudCfg (mkCrudArgs [mkOp "create", mkOp "read"])
        rfl).1 [mkOp "create", mkOp "read"] rfl (by simp) hok
    have hcomp : crudExecute sampleCrudCfg (mkCrudArgs [mkOp "create", mkOp "read"]) =
        (Except.ok (successResult "Batch completed: 2 operations"
          (some ["Created", "Read"]) none),
         ["create", "read"]) := rfl
    exact hcomp
  · exact (claim7_crud_failfast sampleCrudCfg
      (mkCrudArgs [mkOp "create", mkOp "drop", mkOp "read"]) rfl).2.1
      [mkOp "create"] (mkOp "drop") [mkOp "read"] rfl hcreate rfl
  · exact (claim7_crud_failfast sampleCrudCfg
      (mkCrudArgs [mkOp "create", mkOp "update", mkOp "read"]) rfl).2.2
      [mkOp "create"] (mkOp "update") [mkOp "read"] failCrudHandler
      (errorResult "boom") rfl hcreate rfl rfl rfl

/-- C8: `fuzzyMatch` implements exactly three deterministic modes on the
lowercased, trimmed strings — equality under `exact`, prefix under
`startsWith`, substring containment by default — with the four concrete
examples behaving as specified and the empty search term matching every
target under the substring and startsWith modes. -/
theorem claim8_fuzzyMatch_modes :
    (∀ target searchTerm : String,
      fuzzyMatch target searchTerm { exact := true, startsWith := false } = true ↔
        fuzzyNormalize target = fuzzyNormalize searchTerm) ∧
    (∀ target searchTerm : String,
      fuzzyMatch target searchTerm { exact := false, startsWith := true } = true ↔
        fuzzyNormalize searchTerm <+: fuzzyNormalize target) ∧
    (∀ target searchTerm : String,
      fuzzyMatch target searchTerm { exact := false, startsWith := false } = true ↔
        fuzzyNormalize searchTerm <:+: fuzzyNormalize target) ∧
    fuzzyMatch "  Colazione " "cola" {} = true ∧
    fuzzyMatch "Pranzo" "cena" {} = false ∧
    fuzzyMatch "Design" "design" { exact := true } = true ∧
    fuzzyMatch "Designs" "design" { exact := true } = false ∧
    (∀ target : String, fuzzyMatch target "" {} = true) ∧
    (∀ target : String, fuzzyMatch target "" { startsWith := true } = true) := by
  refine ⟨?_, ?_, ?_, by decide, by decide, by decide, by decide, ?_, ?_⟩
  · intro t s
    simp [fuzzyMatch]
  · intro t s
    simp [fuzzyMatch, List.isPrefixOf_iff_prefix]
  · intro t s
    exact jsIncludes_spec (fuzzyNormalize t) (fuzzyNormalize s)
  · intro t
    exact (jsIncludes_spec (fuzzyNormalize t) (fuzzyNormalize "")).mpr
      List.nil_infix
  · intro t
    show List.isPrefixOf (fuzzyNormalize "") (fuzzyNormalize t) = true
    rw [List.isPrefixOf_iff_prefix]
    exact List.nil_prefix

/-- C8 witness: the substring mode evaluated on a concrete pair through the
mode characterization. -/
theorem claim8_fuzzyMatch_modes_witness :
    fuzzyMatch "Squat con bilanciere" "squat"
      { exact := false, startsWith := false } = true := by
  refine (claim8_fuzzyMatch_modes.2.2.1 "Squat con bilanciere" "squat").mpr ?_
  refine (jsIncludes_spec _ _).mp ?_
  rfl

/-- C9: `fuzzyFindIndex` returns the index of the first item in list order
whose field is a string fuzzy-matching the term, `-1` when no item
qualifies, and items whose field is not a string are skipped rather than
raising; the first qualifying item wins, with no scoring beyond the three
modes. -/
theorem claim9_fuzzyFindIndex_first_match (items : List JsRecord)
    (nameField searchTerm : String) (options : FuzzyMatchOptions) :
    (fuzzyFindIndex items nameField searchTerm options = -1 ↔
      ∀ it ∈ items, fuzzyFieldMatches nameField searchTerm options it = false) ∧
    (∀ i : Nat, fuzzyFindIndex items nameField searchTerm options = (i : Int) ↔
      ∃ h : i < items.length,
        fuzzyFieldMatches nameField searchTerm options (items.get ⟨i, h⟩) = true ∧
        ∀ j (hj : j < i),
          fuzzyFieldMatches nameField searchTerm options
            (items.get ⟨j, Nat.lt_trans hj h⟩) = false) ∧
    (∀ it : JsRecord, it nameField = JsFieldValue.nonString →
      fuzzyFieldMatches nameField searchTerm options it = false) := by
  refine ⟨?_, ?_, ?_⟩
  · unfold fuzzyFindIndex
    cases hfind : items.findIdx? (fuzzyFieldMatches nameField searchTerm options) with
    | none =>
      simp only []
      constructor
      · intro _
        exact List.findIdx?_eq_none_iff.mp hfind
      · intro _
        trivial
    | some n =>
      simp only []
      constructor
      · intro h
        exact absurd h (by omega)
      · intro hall
        have : items.findIdx? (fuzzyFieldMatches nameField searchTerm options) = none :=
          List.findIdx?_eq_none_iff.mpr hall
        rw [hfind] at this
        exact absurd this (by simp)
  · intro i
    unfold fuzzyFindIndex
    cases hfind : items.findIdx? (fuzzyFieldMatches nameField searchTerm options) with
    | none =>
      simp only []
      constructor
      · intro h
        exact absurd h (by omega)
      · rintro ⟨h, hp, -⟩
        have hfalse := List.findIdx?_eq_none_iff.mp hfind (items.get ⟨i, h⟩)
          (items.get_mem i h)
        rw [hp] at hfalse
        exact absurd hfalse (by simp)
    | some n =>
      simp only []
      obtain ⟨hn, hpn, halln⟩ := List.findIdx?_eq_some_iff_getElem.mp hfind
      constructor
      · intro h
        have hni : n = i := by omega
        subst hni
        refine ⟨hn, by simpa [List.get_eq_getElem] using hpn, ?_⟩
        intro j hj
        have := halln j hj
        simpa [List.get_eq_getElem] using this
      · rintro ⟨h, hp, hall⟩
        have hni : n = i := by
          rcases Nat.lt_trichotomy n i with hlt | heq | hgt
          · have := hall n hlt
            rw [show items.get ⟨n, Nat.lt_trans hlt h⟩ = items[n] from rfl] at this
            rw [this] at hpn
            exact absurd hpn (by simp)
          · exact heq
          · have hfalse : ¬ fuzzyFieldMatches nameField searchTerm options
                (items.get ⟨i, h⟩) = true := halln i hgt
            rw [hp] at hfalse
            exact absurd rfl hfalse
        subst hni
        rfl
  · intro it h
    simp [fuzzyFieldMatches, h]

/-- C9 witness: on a list whose first item has a non-string field, the
second item wins with index 1, and a term matching nothing yields -1. -/
theorem claim9_fuzzyFindIndex_first_match_witness :
    fuzzyFindIndex [nonStrRec, recOf "Pranzo"] "name" "pran" {} = 1 ∧
    fuzzyFindIndex [recOf "Colazione"] "name" "cena" {} = -1 := by
  constructor
  · refine ((claim9_fuzzyFindIndex_first_match [nonStrRec, recOf "Pranzo"]
      "name" "pran" {}).2.1 1).mpr ⟨by decide, rfl, ?_⟩
    intro j hj
    have hj0 : j = 0 := Nat.lt_one_iff.mp hj
    subst hj0
    rfl
  · refine ((claim9_fuzzyFindIndex_first_match [recOf "Colazione"]
      "name" "cena" {}).1).mpr ?_
    intro it hit
    have : it = recOf "Colazione" := by simpa using hit
    subst this
    rfl

/-- C10: whenever the pipeline reaches the modification loop, `saveEntity`
is invoked exactly once with the current entity — even when every item named
an unknown action, so nothing was applied: the save log records exactly one
write of the unmodified entity, and the overall result still reports
`success == true` with `modificationsApplied == 0` and one error per item. -/
theorem claim10_save_despite_all_failed {E V : Type} (cfg : AgenticToolConfig E V)
    (args : AgenticArgs V) (entity : E)
    (hres : cfg.resolveEntity args.entityId = Except.ok (some entity))
    (hval : validationFailure (T := AgenticMeta) cfg entity = none)
    (hne : buildModifications args ≠ [])
    (hunknown : ∀ m ∈ buildModifications args, cfg.actions.lookup m.action = none)
    (hbefore : cfg.beforeSave = none)
    (hafter : cfg.afterSave = none)
    (hsave : cfg.saveEntity args.entityId entity = Except.ok ()) :
    agenticExecute cfg args =
      (Except.ok (successResult
        (String.intercalate "\n"
          ((buildModifications args).map (fun m => "❌ Unknown action: " ++ m.action)))
        (some { entityId := args.entityId, modificationsApplied := 0,
                errors := (buildModifications args).length })
        none),
       [entity]) := by
  rw [agenticExecute_eq_finish cfg args entity hres hval hne,
    runMods_all_unknown cfg.actions entity (buildModifications args) hunknown]
  have hb : runBeforeSave cfg entity = Except.ok entity := by
    simp [runBeforeSave, hbefore]
  have ha : runAfterSave cfg entity = Except.ok () := by
    simp [runAfterSave, hafter]
  rw [agenticFinish_save_ok cfg args.entityId entity entity
    ((buildModifications args).map (fun m => "❌ Unknown action: " ++ m.action))
    hb hsave ha]
  have hsucc : (((buildModifications args).map
      (fun m => "❌ Unknown action: " ++ m.action)).filter
        (fun r => jsStartsWith r "✅")).length = 0 := by
    rw [List.filter_map]
    simp [Function.comp, unknown_line_no_success_marker]
  have herr : (((buildModifications args).map
      (fun m => "❌ Unknown action: " ++ m.action)).filter
        (fun r => jsStartsWith r "❌")).length = (buildModifications args).length := by
    rw [List.filter_map]
    simp [Function.comp, unknown_line_error_marker]
  rw [hsucc, herr]

/-- C10 witness: one unknown-action item — the save log shows exactly one
save of the untouched entity and the result reports success with zero
applied modifications. -/
theorem claim10_save_despite_all_failed_witness :
    agenticExecute plainCfg singleUnknownArgs =
      (Except.ok (successResult "❌ Unknown action: missing_action"
        (some { entityId := "plan-4", modificationsApplied := 0, errors := 1 })
        none),
       [0]) := by
  have h := claim10_save_despite_all_failed plainCfg singleUnknownArgs 0
    rfl rfl (by decide)
    (by
      intro m hm
      have hm2 : m = mkItem "missing_action" := by
        simpa [singleUnknownArgs, buildModifications] using hm
      subst hm2
      rfl)
    rfl rfl rfl
  simpa using h

end CopilotFramework
